import Mathlib

/-!
Verification of the UCT search core of leela-zero (src/UCTSearch.cpp).

The file shallowly embeds the search driver: the recursive simulation
play_simulation, the resignation test should_resign, the move chooser
get_best_move, the limit setters set_playout_limit / set_visit_limit and
set_gamestate.  The external collaborators (GameState board mechanics,
UCTNode child selection and expansion, the transposition table, the neural
evaluator) are not part of UCTSearch.cpp; they enter as oracle functions
collected in an Env record, so every theorem quantifies over all behaviours
of the collaborators.  Machine int values are modelled as Int (with INT_MAX
for the saturation in set_playout_limit), float arithmetic as exact
rationals.  play_simulation additionally returns an event trace recording,
for each node (identified by its path of child indices from the call root),
the virtual-loss apply/undo, backup update, invalidation, expansion attempt
and leaf-evaluation actions, so statements about what the code does and
does not do on a return path become statements about the trace.
-/

namespace LeelaZero

/-- A node in the tree is identified by the list of child indices leading to
it from the node on which the call under scrutiny was made. -/
abbrev Path := List Nat

/-- Modelled from the spec: the two players; FastBoard colour constants are
in the external board module. -/
inductive Color where
  | black
  | white
deriving DecidableEq

/-- Modelled from the spec: the PASS sentinel move value (an integer
constant provided by the external board module). -/
def PASS : Int := -1

/-- Modelled from the spec: the RESIGN sentinel move value (an integer
constant provided by the external board module). -/
def RESIGN : Int := -2

/-- Modelled from the spec: the NOPASS pass-flag bit; flag bits are
OR-combined into an integer passflag. -/
def NOPASS : Nat := 1

/-- Modelled from the spec: the NORESIGN pass-flag bit. -/
def NORESIGN : Nat := 2

/-- Modelled from the spec: SearchResult is a small value carrying
(valid, evaluation); it is constructed by from_score on a terminal double
pass, by from_eval after an expansion or leaf evaluation, and is invalid
when default-constructed. -/
inductive SearchResult where
  | invalid
  | from_score (score : ℚ)
  | from_eval (ev : ℚ)
deriving DecidableEq

/-- A SearchResult is valid unless default-constructed. -/
def SearchResult.valid : SearchResult → Bool
  | .invalid => false
  | .from_score _ => true
  | .from_eval _ => true

/-- Modelled from the spec: the evaluation carried by a SearchResult, from
Black's perspective; a terminal score is mapped to the win indicator.  No
claim below depends on the exact mapping. -/
def SearchResult.eval : SearchResult → ℚ
  | .invalid => 0
  | .from_score s => if 0 < s then 1 else if s < 0 then 0 else 1/2
  | .from_eval e => e

/-- Modelled from the spec: the per-node state of the external UCTNode
module consumed by the search core: the move that led here, the
virtual-loss counter, the visit count, the accumulated value sum, the
invalidated flag (valid = true means not invalidated), and the children. -/
inductive UCTNode where
  | node (move : Int) (vl : Int) (visits : Int) (blackevals : ℚ) (valid : Bool)
      (children : List UCTNode) : UCTNode

/-- The move that led to this node. -/
def UCTNode.get_move : UCTNode → Int
  | .node mv _ _ _ _ _ => mv

/-- The virtual-loss counter of the node itself. -/
def UCTNode.vl : UCTNode → Int
  | .node _ v _ _ _ _ => v

/-- The visit count of the node itself. -/
def UCTNode.visits : UCTNode → Int
  | .node _ _ vis _ _ _ => vis

/-- The children list of the node. -/
def UCTNode.children : UCTNode → List UCTNode
  | .node _ _ _ _ _ cs => cs

/-- Modelled from the spec: invalidate marks the node unreachable
(superko); selection skips invalidated children. -/
def UCTNode.invalidate : UCTNode → UCTNode
  | .node mv v vis be _ cs => .node mv v vis be false cs

/-- The slice of the external GameState consumed by UCTSearch.cpp; aux
abstracts the rest of the position so that the oracle collaborators can
depend on it. -/
structure GameState where
  to_move : Color
  hash : Nat
  komi : ℚ
  passes : Nat
  aux : Nat

/-- The external collaborators of the search core, as oracles.  tt_sync may
rewrite the node's (visits, blackevals) statistics from the transposition
table; create_children returns, on success, the leaf evaluation, the new
children and the updated node count; uct_select_child returns the index of
the selected child (out of range or none models a null child pointer). -/
structure Env where
  MAX_TREE_SIZE : Nat
  tt_sync : Nat → ℚ → Int × ℚ → Int × ℚ
  play_move : GameState → Int → GameState
  play_pass : GameState → GameState
  superko : GameState → Bool
  final_score : GameState → ℚ
  eval_state : GameState → ℚ
  create_children : Nat → GameState → Option (ℚ × List UCTNode × Nat)
  uct_select_child : Color → UCTNode → Option Nat

/-- Instrumentation events recorded by the embedded play_simulation; each
carries the path of the node it acts on, relative to the call root. -/
inductive Event where
  | vloss (p : Path)
  | vloss_undo (p : Path)
  | update (p : Path)
  | invalidate (p : Path)
  | expand_attempt (p : Path)
  | eval_leaf (p : Path)
deriving DecidableEq

/-- The path an event acts on. -/
def Event.path : Event → Path
  | .vloss p => p
  | .vloss_undo p => p
  | .update p => p
  | .invalidate p => p
  | .expand_attempt p => p
  | .eval_leaf p => p

/-- The tail of play_simulation after a recursive descent into child i
(UCTSearch.cpp lines 106-110): reinsert the updated child, back up the
value through node.update when the result is valid, undo the virtual loss.
vl1, vis1, be1 are the node's counters after tt_sync and virtual_loss. -/
def finish_backup (mv vl1 vis1 : Int) (be1 : ℚ) (val0 : Bool) (cs : List UCTNode) (i : Nat)
    (rr : SearchResult × UCTNode × Nat × List Event) (p : Path) :
    SearchResult × UCTNode × Nat × List Event :=
  if rr.1.valid then
    (rr.1, .node mv (vl1 - 1) (vis1 + 1) (be1 + rr.1.eval) val0 (cs.set i rr.2.1), rr.2.2.1,
      Event.vloss p :: rr.2.2.2 ++ [Event.update p, Event.vloss_undo p])
  else
    (rr.1, .node mv (vl1 - 1) vis1 be1 val0 (cs.set i rr.2.1), rr.2.2.1,
      Event.vloss p :: rr.2.2.2 ++ [Event.vloss_undo p])

/-- UCTSearch::play_simulation (UCTSearch.cpp lines 59-113), instrumented
with an event trace.  The node is threaded functionally: the returned
UCTNode is the argument node after the call, and the returned Nat is
m_nodes.  tt_sync is applied to the node's (visits, blackevals), then the
virtual loss; a childless node is handled by the terminal / expansion /
tree-full leaf block, a node with children by uct_select_child followed by
the superko check and the recursive descent; a valid result is backed up
via update, and the virtual loss is undone on every path. -/
def play_simulation (env : Env) (state : GameState) (nd : UCTNode) (m_nodes : Nat) (p : Path) :
    SearchResult × UCTNode × Nat × List Event :=
  match nd with
  | .node mv vl0 vis0 be0 val0 cs =>
    if cs.isEmpty then
      if 2 ≤ state.passes then
        (SearchResult.from_score (env.final_score state),
          .node mv (vl0 + 1 - 1)
            ((env.tt_sync state.hash state.komi (vis0, be0)).1 + 1)
            ((env.tt_sync state.hash state.komi (vis0, be0)).2 +
              (SearchResult.from_score (env.final_score state)).eval)
            val0 cs,
          m_nodes, [Event.vloss p, Event.update p, Event.vloss_undo p])
      else if m_nodes < env.MAX_TREE_SIZE then
        match env.create_children m_nodes state with
        | some (ev, newcs, m2) =>
          (SearchResult.from_eval ev,
            .node mv (vl0 + 1 - 1)
              ((env.tt_sync state.hash state.komi (vis0, be0)).1 + 1)
              ((env.tt_sync state.hash state.komi (vis0, be0)).2 +
                (SearchResult.from_eval ev).eval)
              val0 newcs,
            m2, [Event.vloss p, Event.expand_attempt p, Event.update p, Event.vloss_undo p])
        | none =>
          (SearchResult.invalid,
            .node mv (vl0 + 1 - 1)
              (env.tt_sync state.hash state.komi (vis0, be0)).1
              (env.tt_sync state.hash state.komi (vis0, be0)).2
              val0 cs,
            m_nodes, [Event.vloss p, Event.expand_attempt p, Event.vloss_undo p])
      else
        (SearchResult.from_eval (env.eval_state state),
          .node mv (vl0 + 1 - 1)
            ((env.tt_sync state.hash state.komi (vis0, be0)).1 + 1)
            ((env.tt_sync state.hash state.komi (vis0, be0)).2 +
              (SearchResult.from_eval (env.eval_state state)).eval)
            val0 cs,
          m_nodes, [Event.vloss p, Event.eval_leaf p, Event.update p, Event.vloss_undo p])
    else
      match env.uct_select_child state.to_move
          (.node mv (vl0 + 1)
            (env.tt_sync state.hash state.komi (vis0, be0)).1
            (env.tt_sync state.hash state.komi (vis0, be0)).2
            val0 cs) with
      | none =>
        (SearchResult.invalid,
          .node mv (vl0 + 1 - 1)
            (env.tt_sync state.hash state.komi (vis0, be0)).1
            (env.tt_sync state.hash state.komi (vis0, be0)).2
            val0 cs,
          m_nodes, [Event.vloss p, Event.vloss_undo p])
      | some i =>
        match hnext : cs[i]? with
        | none =>
          (SearchResult.invalid,
            .node mv (vl0 + 1 - 1)
              (env.tt_sync state.hash state.komi (vis0, be0)).1
              (env.tt_sync state.hash state.komi (vis0, be0)).2
              val0 cs,
            m_nodes, [Event.vloss p, Event.vloss_undo p])
        | some next =>
          if next.get_move ≠ PASS then
            if env.superko (env.play_move state next.get_move) then
              (SearchResult.invalid,
                .node mv (vl0 + 1 - 1)
                  (env.tt_sync state.hash state.komi (vis0, be0)).1
                  (env.tt_sync state.hash state.komi (vis0, be0)).2
                  val0 (cs.set i next.invalidate),
                m_nodes, [Event.vloss p, Event.invalidate (p ++ [i]), Event.vloss_undo p])
            else
              finish_backup mv (vl0 + 1)
                (env.tt_sync state.hash state.komi (vis0, be0)).1
                (env.tt_sync state.hash state.komi (vis0, be0)).2
                val0 cs i
                (play_simulation env (env.play_move state next.get_move) next m_nodes (p ++ [i]))
                p
          else
            finish_backup mv (vl0 + 1)
              (env.tt_sync state.hash state.komi (vis0, be0)).1
              (env.tt_sync state.hash state.komi (vis0, be0)).2
              val0 cs i
              (play_simulation env (env.play_pass state) next m_nodes (p ++ [i]))
              p
termination_by sizeOf nd
decreasing_by
  all_goals
    have hlt := List.sizeOf_lt_of_mem (List.getElem?_mem hnext)
    simp only [UCTNode.node.sizeOf_spec]
    omega

/-- UCTSearch::increment_playouts (UCTSearch.cpp lines 377-379). -/
def increment_playouts (m_playouts : Nat) : Nat := m_playouts + 1

/-- The playout-counting step shared by UCTWorker::operator() (lines
367-375) and the think / ponder loops: the counter is incremented exactly
when the simulation result is valid. -/
def count_if_valid (r : SearchResult) (m_playouts : Nat) : Nat :=
  if r.valid then increment_playouts m_playouts else m_playouts

/-- Modelled from the spec: the maximum representable value of the int
counters m_maxplayouts / m_maxvisits (declared in UCTSearch.h). -/
def INT_MAX : Int := 2 ^ 31 - 1

/-- UCTSearch::set_playout_limit (UCTSearch.cpp lines 501-510): 0 means
unlimited, i.e. the maximum representable value of the counter type. -/
def set_playout_limit (playouts : Int) : Int :=
  if playouts = 0 then INT_MAX else playouts

/-- UCTSearch::set_visit_limit (UCTSearch.cpp lines 512-521). -/
def set_visit_limit (visits : Int) : Int :=
  if visits = 0 then INT_MAX else visits

/-- The state owned by UCTSearch that set_gamestate touches. -/
structure SearchState where
  m_playouts : Nat
  m_nodes : Nat
  m_root : UCTNode
  m_rootstate : GameState

/-- UCTSearch::set_gamestate (UCTSearch.cpp lines 48-57): reset m_playouts,
reroot the tree when komi or board hash differ from the remembered root
state, recompute m_nodes.  find_new_root and count_nodes are external
UCTNode operations, passed as oracles. -/
def set_gamestate (find_new_root : GameState → GameState → UCTNode → UCTNode)
    (count_nodes : UCTNode → Nat) (s : SearchState) (g : GameState) : SearchState :=
  let s1 : SearchState := { s with m_playouts := 0 }
  let root2 : UCTNode :=
    if s1.m_rootstate.komi ≠ g.komi ∨ s1.m_rootstate.hash ≠ g.hash then
      find_new_root g s1.m_rootstate s1.m_root
    else s1.m_root
  { s1 with m_root := root2, m_nodes := count_nodes root2 }

/-- The inputs UCTSearch::should_resign reads besides its arguments: the
configuration globals cfg_resignpct and cfg_max_playouts, the root node
visit count, and the boardsize / movenum / handicap / side-to-move of
m_rootstate. -/
structure ResignCtx where
  cfg_resignpct : Int
  cfg_max_playouts : Int
  root_visits : Int
  boardsize : Nat
  movenum : Nat
  handicap : Int
  to_move : Color

/-- UCTSearch::should_resign (UCTSearch.cpp lines 154-208).  Float
arithmetic is modelled exactly over ℚ (0.01f as 1/100, 0.6f as 3/5);
board_squares and the move threshold use size_t, i.e. Nat, division. -/
def should_resign (ctx : ResignCtx) (passflag : Nat) (bestscore : ℚ) : Bool :=
  if passflag &&& NORESIGN ≠ 0 then false
  else if ctx.cfg_resignpct = 0 then false
  else if ctx.root_visits < min 500 ctx.cfg_max_playouts then false
  else if ctx.movenum ≤ ctx.boardsize * ctx.boardsize / 4 then false
  else if (1/100 : ℚ) * (if ctx.cfg_resignpct < 0 then 10 else (ctx.cfg_resignpct : ℚ)) <
      bestscore then false
  else if 0 < ctx.handicap ∧ ctx.to_move = Color.white ∧ ctx.cfg_resignpct < 0 then
    if min 1 ((ctx.movenum : ℚ) / ((3/5) * (ctx.boardsize * ctx.boardsize : Nat))) *
          ((1/100 : ℚ) * (if ctx.cfg_resignpct < 0 then 10 else (ctx.cfg_resignpct : ℚ))) +
        (1 - min 1 ((ctx.movenum : ℚ) / ((3/5) * (ctx.boardsize * ctx.boardsize : Nat)))) *
          ((1/100 : ℚ) * (if ctx.cfg_resignpct < 0 then 10 else (ctx.cfg_resignpct : ℚ)) /
            (1 + (ctx.handicap : ℚ))) <
        bestscore then false
    else true
  else true

/-- The slice of a root child consumed by get_best_move: its move, its
visit count (first_visit is visits = 0) and its value from a colour's
perspective. -/
structure Child where
  move : Int
  visits : Int
  eval : Color → ℚ

/-- The pass / no-pass adjustment stage of UCTSearch::get_best_move
(UCTSearch.cpp lines 234-310), producing the candidate (bestmove,
bestscore) that the resignation check then inspects.  nopass_child is the
external root.get_nopass_child(m_rootstate); final_score the external
m_rootstate.final_score(). -/
def pass_stage (color : Color) (bestmove : Int) (bestscore : ℚ) (nopass_child : Option Child)
    (final_score : ℚ) (last_move : Int) (cfg_dumbpass : Bool) (passflag : Nat) : Int × ℚ :=
  if passflag &&& NOPASS ≠ 0 then
    if bestmove = PASS then
      match nopass_child with
      | some c => (c.move, if c.visits = 0 then 1 else c.eval color)
      | none => (bestmove, bestscore)
    else (bestmove, bestscore)
  else if cfg_dumbpass = false ∧ bestmove = PASS then
    if (0 < final_score ∧ color = Color.white) ∨ (final_score < 0 ∧ color = Color.black) then
      match nopass_child with
      | some c => (c.move, if c.visits = 0 then 1 else c.eval color)
      | none => (bestmove, bestscore)
    else (bestmove, bestscore)
  else if cfg_dumbpass = false ∧ last_move = PASS then
    if (0 < final_score ∧ color = Color.white) ∨ (final_score < 0 ∧ color = Color.black) then
      (bestmove, bestscore)
    else (PASS, bestscore)
  else (bestmove, bestscore)

/-- UCTSearch::get_best_move (UCTSearch.cpp lines 210-322).  first_child is
the first root child after the external sort_children and the optional
early-game randomize_first_proportionally; the side to move, root visit
count and resignation configuration are in ctx.  If the first child is
unvisited its move is returned at once; otherwise the pass stage adjusts
the candidate and, when the candidate is not PASS and should_resign
agrees, RESIGN is returned. -/
def get_best_move (ctx : ResignCtx) (first_child : Child) (nopass_child : Option Child)
    (final_score : ℚ) (last_move : Int) (cfg_dumbpass : Bool) (passflag : Nat) : Int :=
  if first_child.visits = 0 then first_child.move
  else
    match pass_stage ctx.to_move first_child.move (first_child.eval ctx.to_move) nopass_child
        final_score last_move cfg_dumbpass passflag with
    | (bestmove, bestscore) =>
      if bestmove ≠ PASS ∧ should_resign ctx passflag bestscore then RESIGN else bestmove

/-- A concrete collaborator environment used by the witnesses below: the
transposition table is empty (sync is the identity), every position is
declared a superko repetition, expansion always fails, and selection
always picks child 0. -/
def env0 : Env where
  MAX_TREE_SIZE := 100
  tt_sync := fun _ _ s => s
  play_move := fun st mv => { st with passes := 0, aux := st.aux + mv.toNat }
  play_pass := fun st => { st with passes := st.passes + 1 }
  superko := fun _ => true
  final_score := fun _ => 0
  eval_state := fun _ => 1/2
  create_children := fun _ _ => none
  uct_select_child := fun _ _ => some 0

/-- A concrete game state for the witnesses: Black to move, no passes. -/
def state0 : GameState := ⟨Color.black, 0, 15/2, 0, 0⟩

/-- A concrete leaf child reached by move 5, used by the witnesses. -/
def child0 : UCTNode := .node 5 0 0 0 true []

/-! ## Theorems -/

/-- C9: for every argument n, set_playout_limit with n = 0 sets the playout
cap to the maximum representable value of the cap's type and with n ≠ 0
sets the cap to n; set_visit_limit behaves identically for the visit cap
(UCTSearch.cpp lines 501-521). -/
theorem set_limits_zero_unlimited (n : Int) :
    (n = 0 → set_playout_limit n = INT_MAX ∧ set_visit_limit n = INT_MAX) ∧
    (n ≠ 0 → set_playout_limit n = n ∧ set_visit_limit n = n) := by
  constructor <;> intro h <;> simp [set_playout_limit, set_visit_limit, h]

/-- Witness for set_limits_zero_unlimited at n = 0 and n = 7. -/
theorem set_limits_zero_unlimited_witness :
    (set_playout_limit 0 = INT_MAX ∧ set_visit_limit 0 = INT_MAX) ∧
    (set_playout_limit 7 = 7 ∧ set_visit_limit 7 = 7) :=
  ⟨(set_limits_zero_unlimited 0).1 rfl, (set_limits_zero_unlimited 7).2 (by decide)⟩

/-- C10: every call to set_gamestate resets m_playouts to 0, whether the
tree is rerooted (komi or hash differ) or kept; think and ponder call
set_gamestate first (UCTSearch.cpp lines 48-57, 382, 475), so each starts
counting playouts from zero. -/
theorem set_gamestate_resets_playouts
    (find_new_root : GameState → GameState → UCTNode → UCTNode)
    (count_nodes : UCTNode → Nat) (s : SearchState) (g : GameState) :
    (set_gamestate find_new_root count_nodes s g).m_playouts = 0 := by
  simp [set_gamestate]

/-- C2 counterexample: with cfg_max_playouts = 0 (unlimited: the effective
limit set_playout_limit 0 is INT_MAX, so min 500 of it is 500 and 100
visits are below it), should_resign nevertheless returns true on a losing
eval, because UCTSearch.cpp line 166 compares against the raw configured
value: min(500, 0) = 0 and the low-visit guard is vacuous. -/
theorem should_resign_low_visits_counterexample :
    (100 : Int) < min 500 (set_playout_limit 0) ∧
    should_resign ⟨-1, 0, 100, 19, 200, 0, Color.black⟩ 0 (2/100) = true := by
  constructor
  · decide
  · norm_num [should_resign, NORESIGN]

/-- C2 amended: should_resign returns false whenever the root visit count
is below min(500, cfg_max_playouts) taken over the raw configured value;
when cfg_max_playouts = 0 (unlimited) this guard is vacuous rather than a
500-visit floor. -/
theorem should_resign_low_visits_raw_cfg (ctx : ResignCtx) (pf : Nat) (bs : ℚ)
    (h : ctx.root_visits < min 500 ctx.cfg_max_playouts) :
    should_resign ctx pf bs = false := by
  simp [should_resign, h]

/-- Witness for should_resign_low_visits_raw_cfg: 3 visits with a 500
playout cap. -/
theorem should_resign_low_visits_raw_cfg_witness :
    should_resign ⟨-1, 500, 3, 19, 200, 0, Color.black⟩ 0 (2/100) = false :=
  should_resign_low_visits_raw_cfg _ 0 _ (by decide)

/-- C8: with no NORESIGN bit, cfg_resignpct = -1, 600 root visits, best
eval 0.02, board size 19 and no handicap, should_resign returns true at
move number 200 and false at move number 80 (which is at most 361/4 = 90),
for any configured playout cap and side to move (UCTSearch.cpp lines
154-208). -/
theorem should_resign_scenario (mp : Int) (c : Color) (pf : Nat)
    (hpf : pf &&& NORESIGN = 0) :
    should_resign ⟨-1, mp, 600, 19, 200, 0, c⟩ pf (2/100) = true ∧
    should_resign ⟨-1, mp, 600, 19, 80, 0, c⟩ pf (2/100) = false := by
  constructor <;> norm_num [should_resign, hpf, lt_min_iff]

/-- Witness for should_resign_scenario at playout cap 0, Black to move,
passflag NORMAL. -/
theorem should_resign_scenario_witness :
    should_resign ⟨-1, 0, 600, 19, 200, 0, Color.black⟩ 0 (2/100) = true ∧
    should_resign ⟨-1, 0, 600, 19, 80, 0, Color.black⟩ 0 (2/100) = false :=
  should_resign_scenario 0 Color.black 0 rfl

/-- C7: if the first child after sorting (and optional early-game
randomization) has a zero visit count, get_best_move returns that child's
move immediately, for all values of the pass, score, resignation and flag
inputs, so none of the no-pass, dumb-pass, pass-out or resignation logic
affects the result (UCTSearch.cpp lines 210-232). -/
theorem get_best_move_unvisited_first (ctx : ResignCtx) (fc : Child) (np : Option Child)
    (fs : ℚ) (lm : Int) (dp : Bool) (pf : Nat) (h : fc.visits = 0) :
    get_best_move ctx fc np fs lm dp pf = fc.move := by
  simp [get_best_move, h]

/-- Witness for get_best_move_unvisited_first on an unvisited first child
with move 5. -/
theorem get_best_move_unvisited_first_witness :
    get_best_move ⟨-1, 0, 600, 19, 200, 0, Color.black⟩ ⟨5, 0, fun _ => 1/2⟩ none 0 PASS
      false 0 = 5 :=
  get_best_move_unvisited_first _ _ none 0 PASS false 0 rfl

/-- C6: with NOPASS unset, cfg_dumbpass false, a visited first child whose
move is not PASS, and the opponent's last move PASS: when passing does not
lose for the side to move, get_best_move returns PASS (passing out; the
resignation check is skipped since the chosen move is PASS), and when
passing loses, the pass stage keeps the first child's move as the
candidate handed to the resignation check (UCTSearch.cpp lines 294-321). -/
theorem get_best_move_passes_out (ctx : ResignCtx) (fc : Child) (np : Option Child) (fs : ℚ)
    (pf : Nat) (hpf : pf &&& NOPASS = 0) (hmv : fc.move ≠ PASS) (hvis : fc.visits ≠ 0) :
    (¬((0 < fs ∧ ctx.to_move = Color.white) ∨ (fs < 0 ∧ ctx.to_move = Color.black)) →
      get_best_move ctx fc np fs PASS false pf = PASS) ∧
    (((0 < fs ∧ ctx.to_move = Color.white) ∨ (fs < 0 ∧ ctx.to_move = Color.black)) →
      pass_stage ctx.to_move fc.move (fc.eval ctx.to_move) np fs PASS false pf =
        (fc.move, fc.eval ctx.to_move)) := by
  constructor <;> intro hl <;>
    simp [get_best_move, pass_stage, hpf, hmv, hvis, hl]

/-- Witness for get_best_move_passes_out: score 0 does not lose for Black,
so the engine passes out. -/
theorem get_best_move_passes_out_witness :
    get_best_move ⟨-1, 0, 600, 19, 200, 0, Color.black⟩ ⟨5, 10, fun _ => 1/2⟩ none 0 PASS
      false 0 = PASS :=
  (get_best_move_passes_out ⟨-1, 0, 600, 19, 200, 0, Color.black⟩ ⟨5, 10, fun _ => 1/2⟩ none 0 0
    rfl (by decide) (by decide)).1 (by simp)

/-- C5: on a childless node with two or more recorded passes,
play_simulation returns the valid terminal result from_score(final_score)
and performs neither an expansion attempt nor a leaf evaluation
(UCTSearch.cpp lines 69-83). -/
theorem play_simulation_terminal_double_pass (env : Env) (state : GameState)
    (mv vl0 vis0 : Int) (be0 : ℚ) (val0 : Bool) (m : Nat) (p : Path)
    (hp : 2 ≤ state.passes) :
    (play_simulation env state (.node mv vl0 vis0 be0 val0 []) m p).1 =
      SearchResult.from_score (env.final_score state) ∧
    (play_simulation env state (.node mv vl0 vis0 be0 val0 []) m p).1.valid = true ∧
    (∀ q, Event.expand_attempt q ∉
        (play_simulation env state (.node mv vl0 vis0 be0 val0 []) m p).2.2.2 ∧
      Event.eval_leaf q ∉
        (play_simulation env state (.node mv vl0 vis0 be0 val0 []) m p).2.2.2) := by
  simp [play_simulation, hp, SearchResult.valid]

/-- Witness for play_simulation_terminal_double_pass on a position with
two passes recorded. -/
theorem play_simulation_terminal_double_pass_witness :
    (play_simulation env0 ⟨Color.black, 0, 15/2, 2, 0⟩ (.node 5 0 0 0 true []) 1 []).1 =
      SearchResult.from_score (env0.final_score ⟨Color.black, 0, 15/2, 2, 0⟩) ∧
    (play_simulation env0 ⟨Color.black, 0, 15/2, 2, 0⟩ (.node 5 0 0 0 true []) 1 []).1.valid =
      true ∧
    (∀ q, Event.expand_attempt q ∉
        (play_simulation env0 ⟨Color.black, 0, 15/2, 2, 0⟩ (.node 5 0 0 0 true []) 1 []).2.2.2 ∧
      Event.eval_leaf q ∉
        (play_simulation env0 ⟨Color.black, 0, 15/2, 2, 0⟩ (.node 5 0 0 0 true []) 1 []).2.2.2) :=
  play_simulation_terminal_double_pass env0 _ 5 0 0 0 true 1 [] (by decide)

/-- C4: on a childless node with fewer than two passes and the tree at or
over MAX_TREE_SIZE, play_simulation attempts no expansion and returns the
valid leaf evaluation from_eval(eval_state(state)) (UCTSearch.cpp lines
69-83). -/
theorem play_simulation_tree_full (env : Env) (state : GameState)
    (mv vl0 vis0 : Int) (be0 : ℚ) (val0 : Bool) (m : Nat) (p : Path)
    (hp : state.passes < 2) (hm : env.MAX_TREE_SIZE ≤ m) :
    (play_simulation env state (.node mv vl0 vis0 be0 val0 []) m p).1 =
      SearchResult.from_eval (env.eval_state state) ∧
    (play_simulation env state (.node mv vl0 vis0 be0 val0 []) m p).1.valid = true ∧
    (∀ q, Event.expand_attempt q ∉
        (play_simulation env state (.node mv vl0 vis0 be0 val0 []) m p).2.2.2) := by
  have hp2 : ¬ 2 ≤ state.passes := by omega
  have hm2 : ¬ m < env.MAX_TREE_SIZE := by omega
  simp [play_simulation, hp2, hm2, SearchResult.valid]

/-- Witness for play_simulation_tree_full with the node budget exhausted. -/
theorem play_simulation_tree_full_witness :
    (play_simulation env0 state0 (.node 5 0 0 0 true []) 100 []).1 =
      SearchResult.from_eval (env0.eval_state state0) ∧
    (play_simulation env0 state0 (.node 5 0 0 0 true []) 100 []).1.valid = true ∧
    (∀ q, Event.expand_attempt q ∉
        (play_simulation env0 state0 (.node 5 0 0 0 true []) 100 []).2.2.2) :=
  play_simulation_tree_full env0 state0 5 0 0 0 true 100 [] (by decide) (by decide)

/-- C3: when the selected child's move is not PASS and playing it triggers
superko, play_simulation invalidates that child, does not recurse into it,
does not call update on the node, returns the invalid result, and the
playout-counting step of the worker or think loop leaves the counter
unchanged (UCTSearch.cpp lines 85-112 and 367-375). -/
theorem play_simulation_superko_invalidates (env : Env) (state : GameState)
    (mv vl0 vis0 : Int) (be0 : ℚ) (val0 : Bool) (cs : List UCTNode) (m : Nat) (p : Path)
    (po : Nat) (vis1 : Int) (be1 : ℚ) (i : Nat) (next : UCTNode)
    (hsync : env.tt_sync state.hash state.komi (vis0, be0) = (vis1, be1))
    (hcs : cs.isEmpty = false)
    (hsel : env.uct_select_child state.to_move (.node mv (vl0 + 1) vis1 be1 val0 cs) = some i)
    (hnext : cs[i]? = some next)
    (hmv : next.get_move ≠ PASS)
    (hsk : env.superko (env.play_move state next.get_move) = true) :
    play_simulation env state (.node mv vl0 vis0 be0 val0 cs) m p =
      (SearchResult.invalid, .node mv vl0 vis1 be1 val0 (cs.set i next.invalidate), m,
        [Event.vloss p, Event.invalidate (p ++ [i]), Event.vloss_undo p]) ∧
    count_if_valid (play_simulation env state (.node mv vl0 vis0 be0 val0 cs) m p).1 po = po := by
  have key : play_simulation env state (.node mv vl0 vis0 be0 val0 cs) m p =
      (SearchResult.invalid, .node mv vl0 vis1 be1 val0 (cs.set i next.invalidate), m,
        [Event.vloss p, Event.invalidate (p ++ [i]), Event.vloss_undo p]) := by
    unfold play_simulation
    rw [hsync]
    simp only [hcs, Bool.false_eq_true, if_false]
    rw [hsel]
    split
    · next heq => cases heq
    · next nx heq =>
      injection heq with hinx
      subst hinx
      split
      · next heq2 => rw [hnext] at heq2; cases heq2
      · next nx2 heq2 =>
        rw [hnext] at heq2
        injection heq2 with hnx2
        subst hnx2
        rw [if_pos hmv, if_pos hsk]
        rw [(by omega : vl0 + 1 - 1 = vl0)]
  refine ⟨key, ?_⟩
  rw [key]
  simp [count_if_valid, SearchResult.valid]

/-- Witness for play_simulation_superko_invalidates: env0 declares every
position a superko repetition and selects child 0, whose move 5 is not a
pass. -/
theorem play_simulation_superko_invalidates_witness :
    play_simulation env0 state0 (.node PASS 0 0 0 true [child0]) 1 [] =
      (SearchResult.invalid, .node PASS 0 0 0 true ([child0].set 0 child0.invalidate), 1,
        [Event.vloss [], Event.invalidate [0], Event.vloss_undo []]) ∧
    count_if_valid (play_simulation env0 state0 (.node PASS 0 0 0 true [child0]) 1 []).1 9 = 9 :=
  play_simulation_superko_invalidates env0 state0 PASS 0 0 0 true [child0] 1 [] 9 0 0 0 child0
    rfl rfl rfl rfl (by decide) rfl


/-- Helper: every event recorded by a play_simulation call on path p acts
on p itself or on a path below p; in particular the events of a recursive
call on a child never act on the parent. -/
theorem play_simulation_trace_under (n : Nat) :
    ∀ (nd : UCTNode), sizeOf nd ≤ n → ∀ (env : Env) (state : GameState) (m : Nat) (p : Path)
      (res : SearchResult) (nd2 : UCTNode) (m2 : Nat) (tr : List Event),
      play_simulation env state nd m p = (res, nd2, m2, tr) →
      ∀ e ∈ tr, ∃ r, e.path = p ++ r := by
  induction n with
  | zero =>
    intro nd hsz
    exfalso
    cases nd with
    | node mv vl0 vis0 be0 val0 cs =>
      simp only [UCTNode.node.sizeOf_spec] at hsz
      omega
  | succ n ih =>
    intro nd hsz env state m p res nd2 m2 tr hps e he
    cases nd with
    | node mv vl0 vis0 be0 val0 cs =>
      simp only [UCTNode.node.sizeOf_spec] at hsz
      unfold play_simulation at hps
      split at hps
      · -- cs empty: leaf block
        split at hps
        · simp only [Prod.mk.injEq] at hps
          obtain ⟨-, -, -, h4⟩ := hps
          subst h4
          simp only [List.mem_cons, List.not_mem_nil, or_false] at he
          rcases he with rfl | rfl | rfl <;> exact ⟨[], by simp [Event.path]⟩
        · split at hps
          · split at hps
            · simp only [Prod.mk.injEq] at hps
              obtain ⟨-, -, -, h4⟩ := hps
              subst h4
              simp only [List.mem_cons, List.not_mem_nil, or_false] at he
              rcases he with rfl | rfl | rfl | rfl <;> exact ⟨[], by simp [Event.path]⟩
            · simp only [Prod.mk.injEq] at hps
              obtain ⟨-, -, -, h4⟩ := hps
              subst h4
              simp only [List.mem_cons, List.not_mem_nil, or_false] at he
              rcases he with rfl | rfl | rfl <;> exact ⟨[], by simp [Event.path]⟩
          · simp only [Prod.mk.injEq] at hps
            obtain ⟨-, -, -, h4⟩ := hps
            subst h4
            simp only [List.mem_cons, List.not_mem_nil, or_false] at he
            rcases he with rfl | rfl | rfl | rfl <;> exact ⟨[], by simp [Event.path]⟩
      · -- selection block
        split at hps
        · simp only [Prod.mk.injEq] at hps
          obtain ⟨-, -, -, h4⟩ := hps
          subst h4
          simp only [List.mem_cons, List.not_mem_nil, or_false] at he
          rcases he with rfl | rfl <;> exact ⟨[], by simp [Event.path]⟩
        · next i heqsel =>
          split at hps
          · simp only [Prod.mk.injEq] at hps
            obtain ⟨-, -, -, h4⟩ := hps
            subst h4
            simp only [List.mem_cons, List.not_mem_nil, or_false] at he
            rcases he with rfl | rfl <;> exact ⟨[], by simp [Event.path]⟩
          · next next heqget =>
            have hnextsz : sizeOf next ≤ n := by
              have := List.sizeOf_lt_of_mem (List.getElem?_mem heqget)
              omega
            split at hps
            · split at hps
              · -- superko
                simp only [Prod.mk.injEq] at hps
                obtain ⟨-, -, -, h4⟩ := hps
                subst h4
                simp only [List.mem_cons, List.not_mem_nil, or_false] at he
                rcases he with rfl | rfl | rfl
                · exact ⟨[], by simp [Event.path]⟩
                · exact ⟨[i], rfl⟩
                · exact ⟨[], by simp [Event.path]⟩
              · -- recursion, non-pass
                rcases hin : play_simulation env (env.play_move state next.get_move) next m
                    (p ++ [i]) with ⟨r1, n1, m1, tr1⟩
                rw [hin] at hps
                unfold finish_backup at hps
                split at hps <;>
                  (simp only [Prod.mk.injEq] at hps
                   obtain ⟨-, -, -, h4⟩ := hps
                   subst h4
                   rcases List.mem_cons.1 he with rfl | he2
                   · exact ⟨[], by simp [Event.path]⟩
                   · rcases List.mem_append.1 he2 with he3 | he4
                     · obtain ⟨r, hr⟩ :=
                         ih next hnextsz env _ m (p ++ [i]) r1 n1 m1 tr1 hin e he3
                       exact ⟨[i] ++ r, by rw [hr, List.append_assoc]⟩
                     · simp only [List.mem_cons, List.not_mem_nil, or_false] at he4
                       rcases he4 with rfl | rfl <;> exact ⟨[], by simp [Event.path]⟩)
            · -- recursion, pass
              rcases hin : play_simulation env (env.play_pass state) next m
                  (p ++ [i]) with ⟨r1, n1, m1, tr1⟩
              rw [hin] at hps
              unfold finish_backup at hps
              split at hps <;>
                (simp only [Prod.mk.injEq] at hps
                 obtain ⟨-, -, -, h4⟩ := hps
                 subst h4
                 rcases List.mem_cons.1 he with rfl | he2
                 · exact ⟨[], by simp [Event.path]⟩
                 · rcases List.mem_append.1 he2 with he3 | he4
                   · obtain ⟨r, hr⟩ :=
                       ih next hnextsz env _ m (p ++ [i]) r1 n1 m1 tr1 hin e he3
                     exact ⟨[i] ++ r, by rw [hr, List.append_assoc]⟩
                   · simp only [List.mem_cons, List.not_mem_nil, or_false] at he4
                     rcases he4 with rfl | rfl <;> exact ⟨[], by simp [Event.path]⟩)


/-- Helper: the trace of a recursive play_simulation call on child path
p ++ [i] contains no virtual-loss apply or undo event for the parent path
p. -/
theorem play_simulation_sub_count (env : Env) (state : GameState) (next : UCTNode) (m : Nat)
    (p : Path) (i : Nat) (r1 : SearchResult) (n1 : UCTNode) (m1 : Nat) (tr1 : List Event)
    (hin : play_simulation env state next m (p ++ [i]) = (r1, n1, m1, tr1)) :
    tr1.count (Event.vloss p) = 0 ∧ tr1.count (Event.vloss_undo p) = 0 := by
  constructor <;>
    (rw [List.count_eq_zero]
     intro hmem
     obtain ⟨r, hr⟩ := play_simulation_trace_under (sizeOf next) next le_rfl env state m
       (p ++ [i]) r1 n1 m1 tr1 hin _ hmem
     simp only [Event.path] at hr
     have hlen := congrArg List.length hr
     simp only [List.length_append, List.length_cons] at hlen
     omega)

/-- C1: every call to play_simulation applies virtual_loss exactly once
and virtual_loss_undo exactly once on the argument node, on every return
path, and the node's virtual-loss counter when the call returns equals its
pre-call value.  The statement quantifies over the node and its path, so
it covers every recursive call as well (UCTSearch.cpp lines 59-113). -/
theorem play_simulation_virtual_loss_balanced (env : Env) (state : GameState) (nd : UCTNode)
    (m : Nat) (p : Path) :
    (play_simulation env state nd m p).2.2.2.count (Event.vloss p) = 1 ∧
    (play_simulation env state nd m p).2.2.2.count (Event.vloss_undo p) = 1 ∧
    (play_simulation env state nd m p).2.1.vl = nd.vl := by
  cases nd with
  | node mv vl0 vis0 be0 val0 cs =>
    rcases hps : play_simulation env state (.node mv vl0 vis0 be0 val0 cs) m p with
      ⟨res, nd2, m2, tr⟩
    dsimp only
    unfold play_simulation at hps
    split at hps
    · split at hps
      · simp only [Prod.mk.injEq] at hps
        obtain ⟨-, h2, -, h4⟩ := hps
        subst h2; subst h4
        refine ⟨by simp [List.count_cons], by simp [List.count_cons], ?_⟩
        simp [UCTNode.vl]
      · split at hps
        · split at hps
          · simp only [Prod.mk.injEq] at hps
            obtain ⟨-, h2, -, h4⟩ := hps
            subst h2; subst h4
            refine ⟨by simp [List.count_cons], by simp [List.count_cons], ?_⟩
            simp [UCTNode.vl]
          · simp only [Prod.mk.injEq] at hps
            obtain ⟨-, h2, -, h4⟩ := hps
            subst h2; subst h4
            refine ⟨by simp [List.count_cons], by simp [List.count_cons], ?_⟩
            simp [UCTNode.vl]
        · simp only [Prod.mk.injEq] at hps
          obtain ⟨-, h2, -, h4⟩ := hps
          subst h2; subst h4
          refine ⟨by simp [List.count_cons], by simp [List.count_cons], ?_⟩
          simp [UCTNode.vl]
    · split at hps
      · simp only [Prod.mk.injEq] at hps
        obtain ⟨-, h2, -, h4⟩ := hps
        subst h2; subst h4
        refine ⟨by simp [List.count_cons], by simp [List.count_cons], ?_⟩
        simp [UCTNode.vl]
      · next i heqsel =>
        split at hps
        · simp only [Prod.mk.injEq] at hps
          obtain ⟨-, h2, -, h4⟩ := hps
          subst h2; subst h4
          refine ⟨by simp [List.count_cons], by simp [List.count_cons], ?_⟩
          simp [UCTNode.vl]
        · next next heqget =>
          split at hps
          · split at hps
            · simp only [Prod.mk.injEq] at hps
              obtain ⟨-, h2, -, h4⟩ := hps
              subst h2; subst h4
              refine ⟨by simp [List.count_cons], by simp [List.count_cons], ?_⟩
              simp [UCTNode.vl]
            · rcases hin : play_simulation env (env.play_move state next.get_move) next m
                  (p ++ [i]) with ⟨r1, n1, m1, tr1⟩
              rw [hin] at hps
              obtain ⟨hz1, hz2⟩ := play_simulation_sub_count env _ next m p i r1 n1 m1 tr1 hin
              unfold finish_backup at hps
              split at hps <;>
                (simp only [Prod.mk.injEq] at hps
                 obtain ⟨-, h2, -, h4⟩ := hps
                 subst h2; subst h4
                 refine ⟨by simp [List.count_cons, List.count_append, hz1],
                   by simp [List.count_cons, List.count_append, hz2], ?_⟩
                 simp [UCTNode.vl])
          · rcases hin : play_simulation env (env.play_pass state) next m
                (p ++ [i]) with ⟨r1, n1, m1, tr1⟩
            rw [hin] at hps
            obtain ⟨hz1, hz2⟩ := play_simulation_sub_count env _ next m p i r1 n1 m1 tr1 hin
            unfold finish_backup at hps
            split at hps <;>
              (simp only [Prod.mk.injEq] at hps
               obtain ⟨-, h2, -, h4⟩ := hps
               subst h2; subst h4
               refine ⟨by simp [List.count_cons, List.count_append, hz1],
                 by simp [List.count_cons, List.count_append, hz2], ?_⟩
               simp [UCTNode.vl])

end LeelaZero
